import Mathlib

/-!
Shallow embedding of the enterprise access-management data model
(`src/app/models/role.py`, `session.py`, `mfa.py`, `policy.py`) and of the
engine operations the specification describes over it.  Times are modelled
as natural numbers (`Nat`), database UUIDs as `Nat` identifiers, and SQL
nullable columns as `Option`.
-/

namespace Elams

/-! ## Permission model (`src/app/models/role.py`, class `Permission`) -/

/-- The columns of `Permission` that `full_name` and the scope invariant
read: `resource` and `action` are non-nullable strings, `scope` is a
nullable `String(100)` column. -/
structure Permission where
  resource : String
  action : String
  scope : Option String
deriving DecidableEq, Repr

/-- Python truthiness of an optional string: `None` and the empty string
are falsy, every other string is truthy.  `Permission.full_name` guards on
`if self.scope:` which uses exactly this test. -/
def pyTruthy : Option String → Bool
  | none => false
  | some s => !s.isEmpty

/-- Embedding of `Permission.full_name` (role.py lines 141-147):
`parts = [self.resource, self.action]`, the scope is appended when
`self.scope` is truthy, and the parts are joined with `":"`. -/
def Permission.full_name (p : Permission) : String :=
  let parts := [p.resource, p.action]
  let parts := if pyTruthy p.scope then parts ++ [p.scope.getD ""] else parts
  String.intercalate ":" parts

/-- Embedding of the constraints the schema declares on a `Permission`
row: `resource` is `String(100)`, `action` is `String(50)`, `scope` is a
nullable `String(100)`.  No declared constraint restricts the content of
`scope` beyond its length (the column is a plain `String`, not a
`SQLEnum`, and there is no check constraint). -/
def PermissionRowOk (p : Permission) : Bool :=
  p.resource.length ≤ 100 && p.action.length ≤ 50 &&
    (match p.scope with
     | none => true
     | some s => s.length ≤ 100)

/-! ## Session model (`src/app/models/session.py`) -/

/-- `SessionStatus` enum from session.py. -/
inductive SessionStatus where
  | active
  | expired
  | terminated
  | revoked
deriving DecidableEq, Repr

/-- The columns of `UserSession` read by `is_active` / `is_expired`, plus
the security-score column.  `expires_at` is non-nullable, `terminated_at`
is nullable. -/
structure UserSession where
  status : SessionStatus
  expires_at : Nat
  terminated_at : Option Nat
  is_suspicious : Bool
  risk_score : Nat
  mfa_verified : Bool
deriving DecidableEq, Repr

/-- A freshly inserted `UserSession` row, carrying the column defaults
declared in session.py: `status` defaults to `ACTIVE`, `is_suspicious` to
false, `risk_score` to `0`, `mfa_verified` to false, `terminated_at` to
null.  Only `expires_at` has no default and must be supplied. -/
def newUserSession (expiresAt : Nat) : UserSession :=
  { status := SessionStatus.active
    expires_at := expiresAt
    terminated_at := none
    is_suspicious := false
    risk_score := 0
    mfa_verified := false }

/-- Embedding of `UserSession.is_active` (session.py lines 78-86),
evaluated at time `now`: status is `ACTIVE`, `expires_at` is strictly in
the future, and `terminated_at` is null. -/
def UserSession.is_active (s : UserSession) (now : Nat) : Bool :=
  s.status = SessionStatus.active && decide (now < s.expires_at) &&
    s.terminated_at = none

/-- Embedding of `UserSession.is_expired` (session.py lines 88-92),
evaluated at time `now`: `expires_at <= now` or status is `EXPIRED`. -/
def UserSession.is_expired (s : UserSession) (now : Nat) : Bool :=
  decide (s.expires_at ≤ now) || s.status = SessionStatus.expired

/-- The `risk_score` column default of `SessionActivity` (session.py line
126): `Integer, default=0`. -/
def sessionActivityRiskScoreDefault : Nat := 0

/-- The `trust_score` column default of `DeviceInfo` (session.py line
166): `Integer, default=0`. -/
def deviceInfoTrustScoreDefault : Nat := 0

/-! ## MFA token model (`src/app/models/mfa.py`) -/

/-- `MFATokenStatus` enum from mfa.py. -/
inductive MFATokenStatus where
  | pending
  | used
  | expired
  | revoked
deriving DecidableEq, Repr

/-- The columns of `MFAToken` read by `is_valid`: the status, the
non-nullable `expires_at`, and the attempt counters (defaults 0 and 3). -/
structure MFAToken where
  status : MFATokenStatus
  expires_at : Nat
  attempts : Nat
  max_attempts : Nat
deriving DecidableEq, Repr

/-- Embedding of `MFAToken.is_valid` (mfa.py lines 180-188), evaluated at
time `now`: status is `PENDING`, `expires_at` is strictly in the future,
and `attempts < max_attempts`. -/
def MFAToken.is_valid (t : MFAToken) (now : Nat) : Bool :=
  t.status = MFATokenStatus.pending && decide (now < t.expires_at) &&
    decide (t.attempts < t.max_attempts)

/-! ## Role-permission grants (`src/app/models/role.py`, class `RolePermission`) -/

/-- The columns of a `RolePermission` row that the unique constraint and
the aggregation read: the two foreign keys, the nullable `expires_at`, and
the `is_active` flag (default true). -/
structure RolePermission where
  role_id : Nat
  permission_id : Nat
  expires_at : Option Nat
  is_active : Bool
deriving DecidableEq, Repr

/-- The table-level constraint declared in `RolePermission.__table_args__`
(role.py line 182): `UniqueConstraint("role_id", "permission_id")`.  A
list of rows is a legal table state only when no two rows share the
`(role_id, permission_id)` pair. -/
def RolePermissionTableOk (rows : List RolePermission) : Prop :=
  rows.Pairwise fun a b =>
    a.role_id ≠ b.role_id ∨ a.permission_id ≠ b.permission_id

instance (rows : List RolePermission) : Decidable (RolePermissionTableOk rows) :=
  List.instDecidablePairwise rows

/-! ## Permission Aggregator (spec §4.2) -/

/-- Modelled from the spec: the Permission Aggregator's expiry test.  The
repository declares the `RolePermission` table but contains no aggregation
code; §4.2 collects grants "whose expiry is null or in the future". -/
def notExpired (now : Nat) (g : RolePermission) : Bool :=
  match g.expires_at with
  | none => true
  | some t => decide (now < t)

/-- Modelled from the spec: the Permission Aggregator `aggregate(roleSet,
context)` (§4.2) is absent from src/ (only the `RolePermission` table it
reads is declared).  For every role in the role set it collects active
grants whose expiry is null or in the future and whose per-grant
conditions hold in the evaluation context (the condition-evaluation
primitive is abstracted as the predicate `ctxOk`), and returns the union
of the granted permissions, deduplicated.  It reads the grant store and
never mutates it. -/
def aggregate (roleSet : List Nat) (now : Nat) (ctxOk : RolePermission → Bool)
    (grants : List RolePermission) : List Nat :=
  ((grants.filter fun g =>
      decide (g.role_id ∈ roleSet) && g.is_active && notExpired now g && ctxOk g).map
    fun g => g.permission_id).dedup

/-! ## Session Trust Monitor (spec §4.6) -/

/-- The ephemeral per-session trust record of spec §3: per-session
`risk_score`, per-device `trust_score`, MFA-verified flag, anomaly flag.
The score columns are declared in session.py (`UserSession.risk_score`,
`DeviceInfo.trust_score`), both commented `0-100`. -/
structure SessionTrustRecord where
  risk_score : Int
  trust_score : Int
  mfa_verified : Bool
  anomaly_detected : Bool
deriving DecidableEq, Repr

/-- A freshly created trust record, carrying the column defaults declared
in session.py: `risk_score` default 0, `trust_score` default 0,
`mfa_verified` default false, `anomaly_detected` default false. -/
def initialTrustRecord : SessionTrustRecord :=
  { risk_score := 0, trust_score := 0
    mfa_verified := false, anomaly_detected := false }

/-- Modelled from the spec: clipping of trust computations to `[0,100]`
(§4.6 "clipped to [0,100]"). -/
def clampScore (n : Int) : Int := max 0 (min 100 n)

/-- Modelled from the spec: the Session Trust Monitor's
`record(sessionId, signal)` update (§4.6) is absent from src/ (only the
score columns are declared).  Each observed signal contributes a weighted
delta to the risk score and to the device trust score; the weighted sum
is clipped to `[0,100]`. -/
def recordSignal (r : SessionTrustRecord) (sig : Int × Int) : SessionTrustRecord :=
  { r with
    risk_score := clampScore (r.risk_score + sig.1)
    trust_score := clampScore (r.trust_score + sig.2) }

/-- The trust record obtained after recording a sequence of signals. -/
def runSignals (r : SessionTrustRecord) (sigs : List (Int × Int)) : SessionTrustRecord :=
  sigs.foldl recordSignal r

/-- Both scores of a trust record lie in `[0,100]`. -/
def ScoresInBounds (r : SessionTrustRecord) : Prop :=
  0 ≤ r.risk_score ∧ r.risk_score ≤ 100 ∧ 0 ≤ r.trust_score ∧ r.trust_score ≤ 100

/-! ## Role Graph Resolver (spec §4.1) -/

/-- The columns of a `RoleHierarchy` edge the resolver reads (role.py
lines 191-223): the parent and child role ids, the stored depth, and the
`inherit_permissions` flag (default true). -/
structure HierarchyEdge where
  parent_role_id : Nat
  child_role_id : Nat
  depth : Nat
  inherit_permissions : Bool
deriving DecidableEq, Repr

/-- Modelled from the spec: one traversal step of the Role Graph Resolver
(§4.1), which is absent from src/ (only the `RoleHierarchy` table is
declared).  From a held role the traversal follows only hierarchy edges
with `inherit_permissions = true`, moving from the child role to the
parent role it inherits from. -/
def neighbors (edges : List HierarchyEdge) (r : Nat) : List Nat :=
  (edges.filter fun e => e.inherit_permissions && decide (e.child_role_id = r)).map
    fun e => e.parent_role_id

/-- The resolver's failure modes: `roleCycleDetected` when the traversal
revisits a role already on the current path (spec §4.1/§7), and
`fuelExhausted` for the structural recursion bound, which the chosen
bound never reaches (proved below). -/
inductive ResolveError where
  | roleCycleDetected
  | fuelExhausted
deriving DecidableEq, Repr

/-- Modelled from the spec: one node visit of the Role Graph Resolver's
traversal (§4.1): a role already on the current path is a cycle and is
fatal; a role already accumulated is skipped (the visited-set guard);
otherwise its inheritance neighbours are traversed with the role pushed
on the path, and the role is accumulated once they complete.  The
neighbour worklist is threaded through the `Except` monad, so the first
failure aborts the whole traversal. -/
def visitNode (edges : List HierarchyEdge) :
    Nat → List Nat → List Nat → Nat → Except ResolveError (List Nat)
  | 0, _, _, _ => Except.error ResolveError.fuelExhausted
  | f + 1, path, acc, r =>
    if r ∈ path then Except.error ResolveError.roleCycleDetected
    else if r ∈ acc then Except.ok acc
    else
      Except.map (fun d => r :: d)
        ((neighbors edges r).foldlM (fun a v => visitNode edges f (r :: path) a v) acc)

/-- Modelled from the spec: the resolver's traversal of a worklist of
roles, threading the accumulated role set and propagating failures. -/
def visitList (edges : List HierarchyEdge) (fuel : Nat) (path acc ws : List Nat) :
    Except ResolveError (List Nat) :=
  ws.foldlM (fun a v => visitNode edges fuel path a v) acc

/-- Every role id the traversal can ever touch: the directly held roles
plus both endpoints of every hierarchy edge. -/
def roleUniverse (edges : List HierarchyEdge) (startRoles : List Nat) : List Nat :=
  startRoles ++ edges.map (fun e => e.parent_role_id) ++
    edges.map fun e => e.child_role_id

/-- Modelled from the spec: `resolve(userId)` of the Role Graph Resolver
(§4.1), absent from src/.  It starts from the user's directly held roles
and runs the guarded depth-first traversal.  The function is total: the
recursion is bounded by `|roleUniverse| + 1`, which exceeds the length of
any duplicate-free path, so the bound is never the reason a call stops
(proved below). -/
def resolve (edges : List HierarchyEdge) (startRoles : List Nat) :
    Except ResolveError (List Nat) :=
  visitList edges ((roleUniverse edges startRoles).dedup.length + 1) [] [] startRoles

/-- Reachability along resolver traversal steps: zero or more
`neighbors` hops. -/
inductive Steps (edges : List HierarchyEdge) : Nat → Nat → Prop
  | refl (r : Nat) : Steps edges r r
  | tail {a b c : Nat} : Steps edges a b → c ∈ neighbors edges b → Steps edges a c

/-- A role list in reverse topological finishing order: each element does
not reappear later and all its traversal neighbours occur strictly after
it.  The resolver's accumulated role set satisfies this on success, which
is what rules out cycles among the visited roles. -/
def TopoOk (edges : List HierarchyEdge) : List Nat → Prop
  | [] => True
  | r :: rest => r ∉ rest ∧ (∀ v ∈ neighbors edges r, v ∈ rest) ∧ TopoOk edges rest

/-! ## Access Request Workflow (spec §4.5) -/

/-- `AccessRequestStatus` enum from policy.py (lines 36-42). -/
inductive AccessRequestStatus where
  | pending
  | approved
  | rejected
  | expired
  | revoked
deriving DecidableEq, Repr

/-- The workflow-relevant state of an `AccessRequest` row: the `status`
column together with the `implemented` flag (policy.py line 210, default
false).  The spec's terminal state `Implemented` is the pair
`(approved, implemented = true)`. -/
structure WorkflowState where
  status : AccessRequestStatus
  implemented : Bool
deriving DecidableEq, Repr

/-- The transition operations spec §4.5 names: final-step approval,
rejection, the time-triggered expiry sweep, revocation, and the explicit
implement operation. -/
inductive WorkflowEvent where
  | approve
  | reject
  | expire
  | revoke
  | implement
deriving DecidableEq, Repr

/-- The workflow error of spec §4.5 / §7. -/
inductive WorkflowError where
  | workflowInvalidTransition
deriving DecidableEq, Repr

/-- A workflow state the spec declares terminal: `Rejected`, `Expired`,
`Revoked`, or `Implemented` (approved with the implementation flag set). -/
def isTerminal (s : WorkflowState) : Bool :=
  s.implemented || s.status = AccessRequestStatus.rejected ||
    s.status = AccessRequestStatus.expired || s.status = AccessRequestStatus.revoked

/-- Modelled from the spec: the Access Request Workflow transition
operation (§4.5) is absent from src/ (only the `AccessRequestStatus` enum
and the `status`/`implemented` columns are declared).  Valid transitions:
`Pending → Approved | Rejected | Expired`, `Approved → Revoked`, and
`Approved → Implemented` via the explicit implement operation.  Every
other call fails with `WorkflowInvalidTransition` and produces no new
state, so the stored request is unchanged. -/
def applyTransition : WorkflowState → WorkflowEvent → Except WorkflowError WorkflowState
  | ⟨AccessRequestStatus.pending, false⟩, WorkflowEvent.approve =>
      Except.ok ⟨AccessRequestStatus.approved, false⟩
  | ⟨AccessRequestStatus.pending, false⟩, WorkflowEvent.reject =>
      Except.ok ⟨AccessRequestStatus.rejected, false⟩
  | ⟨AccessRequestStatus.pending, false⟩, WorkflowEvent.expire =>
      Except.ok ⟨AccessRequestStatus.expired, false⟩
  | ⟨AccessRequestStatus.approved, false⟩, WorkflowEvent.revoke =>
      Except.ok ⟨AccessRequestStatus.revoked, false⟩
  | ⟨AccessRequestStatus.approved, false⟩, WorkflowEvent.implement =>
      Except.ok ⟨AccessRequestStatus.approved, true⟩
  | _, _ => Except.error WorkflowError.workflowInvalidTransition

end Elams

namespace Elams

/-! ## Helper lemmas -/

/-- `clampScore` always lands in `[0,100]`. -/
theorem clampScore_mem (n : Int) : 0 ≤ clampScore n ∧ clampScore n ≤ 100 := by
  simp only [clampScore]
  omega

/-- Recording one signal keeps both scores in bounds. -/
theorem recordSignal_bounds (r : SessionTrustRecord) (sig : Int × Int) :
    ScoresInBounds (recordSignal r sig) := by
  have h1 := clampScore_mem (r.risk_score + sig.1)
  have h2 := clampScore_mem (r.trust_score + sig.2)
  exact ⟨h1.1, h1.2, h2.1, h2.2⟩

/-- Recording any sequence of signals preserves the score bounds. -/
theorem runSignals_bounds (sigs : List (Int × Int)) (r : SessionTrustRecord)
    (h : ScoresInBounds r) : ScoresInBounds (runSignals r sigs) := by
  induction sigs generalizing r with
  | nil => exact h
  | cons s rest ih => exact ih (recordSignal r s) (recordSignal_bounds r s)

/-! ## Resolver lemmas (towards C6) -/

theorem visitList_nil (edges : List HierarchyEdge) (fuel : Nat) (path acc : List Nat) :
    visitList edges fuel path acc [] = Except.ok acc := rfl

theorem visitList_cons (edges : List HierarchyEdge) (fuel : Nat)
    (path acc : List Nat) (v : Nat) (vs : List Nat) :
    visitList edges fuel path acc (v :: vs) =
      match visitNode edges fuel path acc v with
      | Except.error e => Except.error e
      | Except.ok d => visitList edges fuel path d vs := by
  rcases h : visitNode edges fuel path acc v with e | d <;>
    simp only [visitList, List.foldlM, h] <;> rfl

theorem visitNode_zero (edges : List HierarchyEdge) (path acc : List Nat) (r : Nat) :
    visitNode edges 0 path acc r = Except.error ResolveError.fuelExhausted := rfl

theorem visitNode_succ (edges : List HierarchyEdge) (f : Nat)
    (path acc : List Nat) (r : Nat) :
    visitNode edges (f + 1) path acc r =
      if r ∈ path then Except.error ResolveError.roleCycleDetected
      else if r ∈ acc then Except.ok acc
      else
        Except.map (fun d => r :: d)
          (visitList edges f (r :: path) acc (neighbors edges r)) := rfl

/-- A duplicate-free list contained in `U` is no longer than `U.dedup`. -/
theorem nodup_subset_length_le (path U : List Nat) (hnd : path.Nodup)
    (hsub : ∀ x ∈ path, x ∈ U) : path.length ≤ U.dedup.length := by
  have h1 : path.toFinset.card = path.length := List.toFinset_card_of_nodup hnd
  have h2 : path.toFinset ⊆ U.toFinset := by
    intro x hx
    rw [List.mem_toFinset] at hx ⊢
    exact hsub x hx
  have h3 := Finset.card_le_card h2
  rw [h1, List.card_toFinset] at h3
  exact h3

/-- Traversal neighbours stay inside the role universe. -/
theorem neighbors_subset_universe (edges : List HierarchyEdge)
    (startRoles : List Nat) (r v : Nat) (hv : v ∈ neighbors edges r) :
    v ∈ roleUniverse edges startRoles := by
  simp only [neighbors, List.mem_map, List.mem_filter] at hv
  obtain ⟨e, ⟨he, -⟩, rfl⟩ := hv
  simp only [roleUniverse, List.mem_append, List.mem_map]
  exact Or.inl (Or.inr ⟨e, he, rfl⟩)

/-- Fuel is never the binding constraint: as long as the current path is
duplicate-free, lies inside the universe, and the fuel dominates the
remaining path budget, the traversal never reports `fuelExhausted`. -/
theorem visit_no_fuel (edges : List HierarchyEdge) (startRoles : List Nat)
    (fuel : Nat) :
    (∀ path acc r, path.Nodup →
      (∀ x ∈ path, x ∈ roleUniverse edges startRoles) →
      r ∈ roleUniverse edges startRoles →
      (roleUniverse edges startRoles).dedup.length + 1 ≤ fuel + path.length →
      visitNode edges fuel path acc r ≠ Except.error ResolveError.fuelExhausted) ∧
    (∀ path acc ws, path.Nodup →
      (∀ x ∈ path, x ∈ roleUniverse edges startRoles) →
      (∀ v ∈ ws, v ∈ roleUniverse edges startRoles) →
      (roleUniverse edges startRoles).dedup.length + 1 ≤ fuel + path.length →
      visitList edges fuel path acc ws ≠ Except.error ResolveError.fuelExhausted) := by
  induction fuel with
  | zero =>
    constructor
    · intro path acc r hnd hsub _ hfuel
      have := nodup_subset_length_le path _ hnd hsub
      omega
    · intro path acc ws hnd hsub _ hfuel
      have := nodup_subset_length_le path _ hnd hsub
      omega
  | succ f ih =>
    have hnode : ∀ path acc r, path.Nodup →
        (∀ x ∈ path, x ∈ roleUniverse edges startRoles) →
        r ∈ roleUniverse edges startRoles →
        (roleUniverse edges startRoles).dedup.length + 1 ≤ (f + 1) + path.length →
        visitNode edges (f + 1) path acc r ≠
          Except.error ResolveError.fuelExhausted := by
      intro path acc r hnd hsub hr hfuel
      rw [visitNode_succ]
      by_cases hp : r ∈ path
      · simp [hp]
      · by_cases ha : r ∈ acc
        · simp [hp, ha]
        · rw [if_neg hp, if_neg ha]
          have hlist := ih.2 (r :: path) acc (neighbors edges r)
            (List.nodup_cons.mpr ⟨hp, hnd⟩)
            (by
              intro x hx
              rcases List.mem_cons.mp hx with rfl | hx
              · exact hr
              · exact hsub x hx)
            (fun v hv => neighbors_subset_universe edges startRoles r v hv)
            (by simp only [List.length_cons]; omega)
          rcases hres : visitList edges f (r :: path) acc (neighbors edges r) with e | d
          · intro hmap
            apply hlist
            rw [hres]
            simp only [Except.map] at hmap
            rw [Except.error.injEq] at hmap
            rw [hmap]
          · simp [Except.map]
    refine ⟨hnode, ?_⟩
    intro path acc ws
    induction ws generalizing acc with
    | nil =>
      intro _ _ _ _
      rw [visitList_nil]
      exact fun h => Except.noConfusion h
    | cons v vs ihw =>
      intro hnd hsub hws hfuel
      rw [visitList_cons]
      rcases hres : visitNode edges (f + 1) path acc v with e | d
      · have := hnode path acc v hnd hsub (hws v (List.mem_cons_self v vs)) hfuel
        rw [hres] at this
        intro hc
        rw [Except.error.injEq] at hc
        exact this (by rw [hc])
      · exact ihw d hnd hsub (fun x hx => hws x (List.mem_cons_of_mem v hx)) hfuel

/-- Success invariant of the traversal: when a visit returns `ok`, the
accumulated role list is in reverse topological finishing order, stays
disjoint from the current path, only grows, and contains every role that
was visited. -/
theorem visit_ok (edges : List HierarchyEdge) (fuel : Nat) :
    (∀ path acc r d, visitNode edges fuel path acc r = Except.ok d →
      TopoOk edges acc → (∀ x ∈ acc, x ∉ path) →
      (TopoOk edges d ∧ (∀ x ∈ d, x ∉ path)) ∧ (∀ x ∈ acc, x ∈ d) ∧ r ∈ d) ∧
    (∀ path acc ws d, visitList edges fuel path acc ws = Except.ok d →
      TopoOk edges acc → (∀ x ∈ acc, x ∉ path) →
      (TopoOk edges d ∧ (∀ x ∈ d, x ∉ path)) ∧ (∀ x ∈ acc, x ∈ d) ∧
        (∀ v ∈ ws, v ∈ d)) := by
  induction fuel with
  | zero =>
    constructor
    · intro path acc r d h
      rw [visitNode_zero] at h
      exact absurd h (fun hc => Except.noConfusion hc)
    · intro path acc ws d h htopo hdis
      cases ws with
      | nil =>
        rw [visitList_nil] at h
        injection h with h
        subst h
        exact ⟨⟨htopo, hdis⟩, fun x hx => hx, fun v hv => absurd hv (List.not_mem_nil v)⟩
      | cons v vs =>
        rw [visitList_cons, visitNode_zero] at h
        exact absurd h (fun hc => Except.noConfusion hc)
  | succ f ih =>
    have hnode : ∀ path acc r d, visitNode edges (f + 1) path acc r = Except.ok d →
        TopoOk edges acc → (∀ x ∈ acc, x ∉ path) →
        (TopoOk edges d ∧ (∀ x ∈ d, x ∉ path)) ∧ (∀ x ∈ acc, x ∈ d) ∧ r ∈ d := by
      intro path acc r d h htopo hdis
      rw [visitNode_succ] at h
      by_cases hp : r ∈ path
      · rw [if_pos hp] at h
        exact absurd h (fun hc => Except.noConfusion hc)
      · rw [if_neg hp] at h
        by_cases ha : r ∈ acc
        · rw [if_pos ha] at h
          injection h with h
          subst h
          exact ⟨⟨htopo, hdis⟩, fun x hx => hx, ha⟩
        · rw [if_neg ha] at h
          rcases hres : visitList edges f (r :: path) acc (neighbors edges r) with e | d0
          · rw [hres] at h
            exact absurd h (fun hc => Except.noConfusion hc)
          · rw [hres] at h
            simp only [Except.map] at h
            injection h with h
            subst h
            have hdis' : ∀ x ∈ acc, x ∉ r :: path := by
              intro x hx
              rw [List.mem_cons]
              rintro (rfl | hxp)
              · exact ha hx
              · exact hdis x hx hxp
            obtain ⟨⟨htd0, hdd0⟩, hsub0, hnb0⟩ :=
              (ih.2) (r :: path) acc (neighbors edges r) d0 hres htopo hdis'
            have hrd0 : r ∉ d0 := fun hr =>
              hdd0 r hr (List.mem_cons_self r path)
            refine ⟨⟨⟨hrd0, hnb0, htd0⟩, ?_⟩, ?_, List.mem_cons_self r d0⟩
            · intro x hx
              rcases List.mem_cons.mp hx with rfl | hx0
              · exact hp
              · exact fun hxp => hdd0 x hx0 (List.mem_cons_of_mem r hxp)
            · intro x hx
              exact List.mem_cons_of_mem r (hsub0 x hx)
    refine ⟨hnode, ?_⟩
    intro path acc ws
    induction ws generalizing acc with
    | nil =>
      intro d h htopo hdis
      rw [visitList_nil] at h
      injection h with h
      subst h
      exact ⟨⟨htopo, hdis⟩, fun x hx => hx, fun v hv => absurd hv (List.not_mem_nil v)⟩
    | cons v vs ihw =>
      intro d h htopo hdis
      rw [visitList_cons] at h
      rcases hres : visitNode edges (f + 1) path acc v with e | d1
      · rw [hres] at h
        exact absurd h (fun hc => Except.noConfusion hc)
      · rw [hres] at h
        obtain ⟨⟨ht1, hd1⟩, hsub1, hv1⟩ := hnode path acc v d1 hres htopo hdis
        obtain ⟨⟨htd, hdd⟩, hsub2, hvs⟩ := ihw d1 d h ht1 hd1
        refine ⟨⟨htd, hdd⟩, fun x hx => hsub2 x (hsub1 x hx), ?_⟩
        intro w hw
        rcases List.mem_cons.mp hw with rfl | hw'
        · exact hsub2 w hv1
        · exact hvs w hw'

/-- Every traversal neighbour of a member of a topologically ordered role
list is itself a member. -/
theorem topo_neighbors_mem (edges : List HierarchyEdge) (S : List Nat) :
    TopoOk edges S → ∀ u ∈ S, ∀ v ∈ neighbors edges u, v ∈ S := by
  induction S with
  | nil => intro _ u hu; cases hu
  | cons a rest ih =>
    rintro ⟨-, hnb, ht⟩ u hu v hv
    rcases List.mem_cons.mp hu with rfl | hu'
    · exact List.mem_cons_of_mem _ (hnb v hv)
    · exact List.mem_cons_of_mem _ (ih ht u hu' v hv)

/-- A topologically ordered role list is closed under traversal
reachability. -/
theorem topo_steps_mem (edges : List HierarchyEdge) (S : List Nat)
    (h : TopoOk edges S) (u w : Nat) (hu : u ∈ S) (hs : Steps edges u w) :
    w ∈ S := by
  induction hs with
  | refl => exact hu
  | tail _ hc ihb => exact topo_neighbors_mem edges S h _ ihb _ hc

/-- No member of a topologically ordered role list lies on a traversal
cycle. -/
theorem topo_no_cycle (edges : List HierarchyEdge) (S : List Nat) :
    TopoOk edges S → ∀ c ∈ S, ∀ v ∈ neighbors edges c, Steps edges v c → False := by
  induction S with
  | nil => intro _ c hc; cases hc
  | cons a rest ih =>
    rintro ⟨han, hnb, ht⟩ c hc v hv hsteps
    rcases List.mem_cons.mp hc with rfl | hc'
    · exact han (topo_steps_mem edges rest ht v _ (hnb v hv) hsteps)
    · exact ih ht c hc' v hv hsteps

/-! ## Claim theorems: C1, C2, C8, C9 -/

/-- C1 counterexample: the claim says the scope is appended exactly when
it is present (non-null).  The code guards on Python truthiness, so a
permission whose scope is present but empty still yields a two-part name:
`full_name ⟨"report", "read", some ""⟩ = "report:read"`, not
`"report:read:"`. -/
theorem full_name_empty_scope_counterexample :
    (Permission.full_name ⟨"report", "read", some ""⟩ = "report:read") ∧
      (some "" ≠ (none : Option String)) ∧
      ("report:read" ≠ "report:read:") := by
  refine ⟨?_, by decide, by decide⟩
  rfl

/-- C1 (amended): the full name is `resource:action:scope` exactly when
the scope is present and non-empty; when the scope is absent or empty the
name is `resource:action`. -/
theorem full_name_spec (p : Permission) :
    (pyTruthy p.scope = true →
      p.full_name = p.resource ++ ":" ++ p.action ++ ":" ++ p.scope.getD "") ∧
    (pyTruthy p.scope = false →
      p.full_name = p.resource ++ ":" ++ p.action) := by
  constructor
  · intro h
    simp only [Permission.full_name, h, if_pos]
    simp [String.intercalate, String.intercalate.go]
  · intro h
    simp only [Permission.full_name, h]
    simp [String.intercalate, String.intercalate.go]

/-- C1 witness: the amended statement evaluated on concrete permissions,
one with a non-empty scope and one with a null scope. -/
theorem full_name_spec_witness :
    Permission.full_name ⟨"report", "read", some "own"⟩ = "report:read:own" ∧
      Permission.full_name ⟨"report", "read", none⟩ = "report:read" :=
  ⟨(full_name_spec ⟨"report", "read", some "own"⟩).1 rfl,
   (full_name_spec ⟨"report", "read", none⟩).2 rfl⟩

/-- C2: a freshly created session trust record (a `UserSession` row built
from the column defaults, before any trust signal is recorded) carries
`risk_score = 0`, the minimum of the 0-100 risk scale — a low-risk
default, not the conservative high-risk default the claim requires; the
same default 0 is declared on `SessionActivity.risk_score`. -/
theorem fresh_session_risk_score_is_low :
    (newUserSession 1000).risk_score = 0 ∧
      sessionActivityRiskScoreDefault = 0 := by
  exact ⟨rfl, rfl⟩

/-- C8: at a single evaluation instant, `is_active` implies not
`is_expired`: an active session (status `ACTIVE`, expiry strictly in the
future, not terminated) is never simultaneously expired. -/
theorem is_active_implies_not_expired (s : UserSession) (now : Nat)
    (h : s.is_active now = true) : s.is_expired now = false := by
  simp only [UserSession.is_active, Bool.and_eq_true, decide_eq_true_eq] at h
  obtain ⟨⟨hstat, hexp⟩, -⟩ := h
  simp only [UserSession.is_expired, Bool.or_eq_false_iff, decide_eq_false_iff_not,
    Nat.not_le, decide_eq_false_iff_not]
  refine ⟨hexp, ?_⟩
  intro hc
  rw [hstat] at hc
  exact SessionStatus.noConfusion hc

/-- C8 witness: a concrete active session is not expired. -/
theorem is_active_implies_not_expired_witness :
    UserSession.is_expired (newUserSession 10) 3 = false :=
  is_active_implies_not_expired (newUserSession 10) 3 (by decide)

/-- C9: `MFAToken.is_valid` holds at an instant iff the status is
`PENDING`, the expiry is strictly in the future, and the attempt count is
strictly below `max_attempts`; hence a token at its attempt limit, or in
status `USED`, `EXPIRED` or `REVOKED`, is never valid. -/
theorem mfa_is_valid_iff (t : MFAToken) (now : Nat) :
    t.is_valid now = true ↔
      (t.status = MFATokenStatus.pending ∧ now < t.expires_at ∧
        t.attempts < t.max_attempts) := by
  simp [MFAToken.is_valid, and_assoc]

/-! ## Claim theorems: C3, C4, C5, C10 -/

/-- C3: starting from a freshly created trust record (score defaults 0
from session.py) and recording any sequence of trust signals, the
per-session `risk_score` and the per-device `trust_score` always lie in
`[0, 100]`: every update clamps rather than exceeds. -/
theorem trust_scores_bounded (sigs : List (Int × Int)) :
    0 ≤ (runSignals initialTrustRecord sigs).risk_score ∧
      (runSignals initialTrustRecord sigs).risk_score ≤ 100 ∧
      0 ≤ (runSignals initialTrustRecord sigs).trust_score ∧
      (runSignals initialTrustRecord sigs).trust_score ≤ 100 :=
  runSignals_bounds sigs initialTrustRecord (by refine ⟨?_, ?_, ?_, ?_⟩ <;> decide)

/-- C4: every workflow transition applied to a terminal request
(`Rejected`, `Expired`, `Revoked`, or `Implemented`) fails with
`WorkflowInvalidTransition` — producing no new state, so the stored
request is unchanged — and the only transitions that succeed are
`Pending → Approved`, `Pending → Rejected`, `Pending → Expired`,
`Approved → Revoked`, and `Approved → Implemented`. -/
theorem workflow_transitions_sound :
    (∀ s e, isTerminal s = true →
      applyTransition s e = Except.error WorkflowError.workflowInvalidTransition) ∧
    (∀ s e s', applyTransition s e = Except.ok s' →
      (s = ⟨AccessRequestStatus.pending, false⟩ ∧
        s' = ⟨AccessRequestStatus.approved, false⟩) ∨
      (s = ⟨AccessRequestStatus.pending, false⟩ ∧
        s' = ⟨AccessRequestStatus.rejected, false⟩) ∨
      (s = ⟨AccessRequestStatus.pending, false⟩ ∧
        s' = ⟨AccessRequestStatus.expired, false⟩) ∨
      (s = ⟨AccessRequestStatus.approved, false⟩ ∧
        s' = ⟨AccessRequestStatus.revoked, false⟩) ∨
      (s = ⟨AccessRequestStatus.approved, false⟩ ∧
        s' = ⟨AccessRequestStatus.approved, true⟩)) := by
  constructor
  · rintro ⟨st, impl⟩ e ht
    cases st <;> cases impl <;> cases e <;> simp_all [isTerminal, applyTransition]
  · rintro ⟨st, impl⟩ e s' h
    cases st <;> cases impl <;> cases e <;> simp_all [applyTransition]

/-- C4 witness: from the terminal state `Rejected`, the approve transition
fails with `WorkflowInvalidTransition`. -/
theorem workflow_transitions_sound_witness :
    applyTransition ⟨AccessRequestStatus.rejected, false⟩ WorkflowEvent.approve =
      Except.error WorkflowError.workflowInvalidTransition :=
  workflow_transitions_sound.1 ⟨AccessRequestStatus.rejected, false⟩
    WorkflowEvent.approve (by decide)

/-- C5: a grant whose `expires_at` is strictly in the past contributes no
permission to `aggregate`'s output, even while its `is_active` flag is
still true — removing it from the store leaves the output unchanged (and
`aggregate` only reads the store, so the expired row itself is not
deleted). -/
theorem aggregate_excludes_expired (roleSet : List Nat) (now t : Nat)
    (ctxOk : RolePermission → Bool) (g : RolePermission) (gs : List RolePermission)
    (hexp : g.expires_at = some t) (hpast : t < now) (_hact : g.is_active = true) :
    aggregate roleSet now ctxOk (g :: gs) = aggregate roleSet now ctxOk gs := by
  have hne : notExpired now g = false := by
    simp only [notExpired, hexp, decide_eq_false_iff_not]
    omega
  simp [aggregate, List.filter_cons, hne]

/-- C5 witness: a grant of permission 7 to role 1 that expired at time 5
contributes nothing at time 10 even though it is still active. -/
theorem aggregate_excludes_expired_witness :
    aggregate [1] 10 (fun _ => true)
        [{ role_id := 1, permission_id := 7, expires_at := some 5, is_active := true }] =
      aggregate [1] 10 (fun _ => true) [] :=
  aggregate_excludes_expired [1] 10 5 (fun _ => true)
    { role_id := 1, permission_id := 7, expires_at := some 5, is_active := true }
    [] rfl (by decide) rfl

/-- C10: in every table state satisfying the declared unique constraint
`uq_role_permission` on `(role_id, permission_id)`, there is at most one
`RolePermission` row for each pair: the grant edge set is a relation, not
a multiset. -/
theorem rolePermission_pair_unique (rows : List RolePermission)
    (h : RolePermissionTableOk rows) (rid pid : Nat) :
    (rows.filter fun r =>
      decide (r.role_id = rid) && decide (r.permission_id = pid)).length ≤ 1 := by
  induction rows with
  | nil => simp
  | cons a rest ih =>
    simp only [RolePermissionTableOk, List.pairwise_cons] at h
    obtain ⟨hhead, htail⟩ := h
    by_cases hm : a.role_id = rid ∧ a.permission_id = pid
    · have hrest : (rest.filter fun r =>
          decide (r.role_id = rid) && decide (r.permission_id = pid)) = [] := by
        rw [List.filter_eq_nil_iff]
        intro b hb
        rcases hhead b hb with hne | hne <;>
          simp only [Bool.and_eq_true, decide_eq_true_eq, not_and] <;>
          intro h1 h2 <;> [exact hne (hm.1.trans h1.symm); exact hne (hm.2.trans h2.symm)]
      simp [List.filter_cons, hm.1, hm.2, hrest]
    · rw [List.filter_cons]
      by_cases hpa : (decide (a.role_id = rid) && decide (a.permission_id = pid)) = true
      · simp only [Bool.and_eq_true, decide_eq_true_eq] at hpa
        exact absurd hpa hm
      · rw [if_neg (by simpa using hpa)]
        exact ih htail

/-- C6: whenever the hierarchy-edge set contains a directed cycle
reachable from the user's directly held roles (some held role `s` reaches
a role `c` that lies on a traversal cycle `c → v → ⋯ → c`), `resolve`
raises `RoleCycleDetected` — not `fuelExhausted` and not a silently
partial `ok` result.  `resolve` is a total Lean function, so it
terminates on every input by construction. -/
theorem resolve_raises_on_cycle (edges : List HierarchyEdge)
    (startRoles : List Nat) (s c v : Nat) (hs : s ∈ startRoles)
    (hreach : Steps edges s c) (hv : v ∈ neighbors edges c)
    (hcyc : Steps edges v c) :
    resolve edges startRoles = Except.error ResolveError.roleCycleDetected := by
  rcases hres : resolve edges startRoles with e | S
  · cases e with
    | roleCycleDetected => rfl
    | fuelExhausted =>
      exfalso
      have hnf := (visit_no_fuel edges startRoles
          ((roleUniverse edges startRoles).dedup.length + 1)).2 [] [] startRoles
        List.nodup_nil (fun x hx => absurd hx (List.not_mem_nil x))
        (fun w hw => List.mem_append.mpr (Or.inl (List.mem_append.mpr (Or.inl hw))))
        (by simp)
      rw [resolve] at hres
      exact hnf hres
  · exfalso
    rw [resolve] at hres
    obtain ⟨⟨htS, -⟩, -, hstart⟩ := (visit_ok edges
        ((roleUniverse edges startRoles).dedup.length + 1)).2 [] [] startRoles S
      hres trivial (fun x hx => absurd hx (List.not_mem_nil x))
    have hcS : c ∈ S := topo_steps_mem edges S htS s c (hstart s hs) hreach
    exact topo_no_cycle edges S htS c hcS v hv hcyc

/-- C6 witness: on the two-edge hierarchy `1 ↔ 2` (a cycle reachable from
the directly held role 1), `resolve` reports `RoleCycleDetected`. -/
theorem resolve_raises_on_cycle_witness :
    resolve [⟨2, 1, 1, true⟩, ⟨1, 2, 1, true⟩] [1] =
      Except.error ResolveError.roleCycleDetected :=
  resolve_raises_on_cycle [⟨2, 1, 1, true⟩, ⟨1, 2, 1, true⟩] [1] 1 1 2
    (by decide) (Steps.refl 1) (by decide)
    (Steps.tail (Steps.refl 2) (by decide))

/-- C7 counterexample: the schema does not restrict the scope to the four
strings — a `Permission` row whose scope is `"galaxy"` satisfies every
declared constraint (`scope` is a plain nullable `String(100)` column, not
an enum, with no check constraint). -/
theorem scope_counterexample :
    PermissionRowOk ⟨"report", "read", some "galaxy"⟩ = true ∧
      (some "galaxy" ≠ (none : Option String)) ∧
      "galaxy" ∉ ["own", "department", "organization", "all"] := by
  refine ⟨by decide, by decide, by decide⟩

/-- C7 (amended): the only declared constraint on a stored scope is its
length — a schema-valid `Permission` has scope either null or an
arbitrary string of at most 100 characters. -/
theorem scope_only_length_constrained (p : Permission)
    (h : PermissionRowOk p = true) :
    p.scope = none ∨ ∃ s, p.scope = some s ∧ s.length ≤ 100 := by
  rcases hp : p.scope with _ | s
  · exact Or.inl rfl
  · refine Or.inr ⟨s, rfl, ?_⟩
    simp only [PermissionRowOk, hp, Bool.and_eq_true, decide_eq_true_eq] at h
    exact h.2

/-- C7 witness: the amended statement evaluated on a concrete
schema-valid permission. -/
theorem scope_only_length_constrained_witness :
    (⟨"report", "read", some "own"⟩ : Permission).scope = none ∨
      ∃ s, (⟨"report", "read", some "own"⟩ : Permission).scope = some s ∧
        s.length ≤ 100 :=
  scope_only_length_constrained ⟨"report", "read", some "own"⟩ (by decide)

/-- C10 witness: a concrete two-row table satisfying the constraint has
at most one row for the pair `(1, 2)`. -/
theorem rolePermission_pair_unique_witness :
    (([{ role_id := 1, permission_id := 2, expires_at := none, is_active := true },
       { role_id := 1, permission_id := 3, expires_at := none, is_active := true }] :
        List RolePermission).filter fun r =>
      decide (r.role_id = 1) && decide (r.permission_id = 2)).length ≤ 1 :=
  rolePermission_pair_unique
    [{ role_id := 1, permission_id := 2, expires_at := none, is_active := true },
     { role_id := 1, permission_id := 3, expires_at := none, is_active := true }]
    (by decide) 1 2

end Elams
